import Mathlib

/-!
Verification of the tensorpipe shm event-loop subsystem
(`tensorpipe/transport/shm/loop.h`) and the CUDA buffer type
(`tensorpipe/common/cuda_buffer.h`).

The repository provides `loop.h`, whose template member `Loop::runInLoop`
carries real code, together with detailed documentation of the record
scheme (`fdToRecord_`, `recordToHandler_`, `nextRecord_{1}`, with record 0
reserved for the eventfd).  The out-of-line member definitions
(`loop.cc`, `reactor.h/.cc`) are not part of the sources given, so those
operations are modelled from the specification, as indicated on each
definition.

Machine integers: `nextRecord_` is a `uint64_t`; its increment is modelled
with an explicit `% 2 ^ 64`.  File descriptors are C `int` values,
modelled as `Int`.  Handlers are identified by a numeric id; the
`weak_ptr` upgrade is modelled by an external liveness predicate
`alive : Nat → Bool` describing which handler objects their owners still
keep alive at processing time.
-/

namespace Tensorpipe

namespace Shm

/-- Lookup in an association list (models `std::unordered_map::find`). -/
def alookup {α β : Type} [DecidableEq α] (k : α) : List (α × β) → Option β
  | [] => none
  | (k', v) :: rest => if k' = k then some v else alookup k rest

/-- Erase a key from an association list (models `std::unordered_map::erase`). -/
def aerase {α β : Type} [DecidableEq α] (k : α) : List (α × β) → List (α × β)
  | [] => []
  | (k', v) :: rest => if k' = k then aerase k rest else (k', v) :: aerase k rest

/-- The registry state of `Loop`: the two maps and the record counter, as
declared in `loop.h` lines 179-181.  `recordToHandler_` stores, for each
live record, the id of the handler whose `weak_ptr` was registered. -/
structure LoopState where
  fdToRecord_ : List (Int × Nat)
  recordToHandler_ : List (Nat × Nat)
  nextRecord_ : Nat
deriving DecidableEq

/-- Initial registry: empty maps, `nextRecord_{1}` ("Reserve record 0 for the
eventfd", `loop.h` line 181). -/
def initialLoopState : LoopState :=
  { fdToRecord_ := [], recordToHandler_ := [], nextRecord_ := 1 }

/-- Modelled from the spec: `Loop::registerDescriptor` (its body, in
`loop.cc`, is not among the given sources).  Per the spec it allocates the
next record id, installs the descriptor with that record as its tag
(replacing the tag if the descriptor was already registered), stores the
descriptor-to-record and record-to-handler mappings and returns the
record; a record superseded by re-registration of the same descriptor is
removed from the second mapping.  The `uint64_t` increment of
`nextRecord_` wraps at `2 ^ 64`. -/
def registerDescriptor (s : LoopState) (fd : Int) (h : Nat) :
    LoopState × Nat :=
  let r := s.nextRecord_
  let oldHandlers :=
    match alookup fd s.fdToRecord_ with
    | some old => aerase old s.recordToHandler_
    | none => s.recordToHandler_
  ({ fdToRecord_ := (fd, r) :: aerase fd s.fdToRecord_,
     recordToHandler_ := (r, h) :: oldHandlers,
     nextRecord_ := (r + 1) % (2 ^ 64) }, r)

/-- Modelled from the spec: `Loop::unregisterDescriptor` (body in
`loop.cc`, not among the given sources).  Per `loop.h` lines 99-108 and
the spec it removes the descriptor from the readiness facility and
deletes both mappings for it. -/
def unregisterDescriptor (s : LoopState) (fd : Int) : LoopState :=
  match alookup fd s.fdToRecord_ with
  | none => s
  | some r =>
      { fdToRecord_ := aerase fd s.fdToRecord_,
        recordToHandler_ := aerase r s.recordToHandler_,
        nextRecord_ := s.nextRecord_ }

/-- An epoll event as seen by `handleEpollEventsFromLoop`: the record that
was stored as the event's extra data by the last `epoll_ctl` call for the
fd, and the readiness bitmask. -/
structure EpollEvent where
  record : Nat
  events : Nat
deriving DecidableEq

/-- Modelled from the spec: the Registry `resolve` step (performed inside
`handleEpollEventsFromLoop`, whose body is in `loop.cc`, not among the
given sources): look the record up; if absent (stale) return nothing,
otherwise upgrade the stored weak reference, which succeeds only when the
owner still keeps the handler alive. -/
def resolve (s : LoopState) (alive : Nat → Bool) (record : Nat) :
    Option Nat :=
  match alookup record s.recordToHandler_ with
  | none => none
  | some h => if alive h then some h else none

/-- What processing one epoll event does: either a handler is invoked with
the bitmask, or the event is dropped silently (stale record, or dead
handler). -/
inductive EventAction where
  | invoked (handler : Nat) (events : Nat)
  | dropped
deriving DecidableEq

/-- Modelled from the spec: processing of a single epoll event inside
`Loop::handleEpollEventsFromLoop` (body in `loop.cc`, not among the given
sources): resolve the record via the registry; if live, invoke the
handler with the bitmask; if stale or dead, skip, with no failure
raised. -/
def processEvent (s : LoopState) (alive : Nat → Bool) (e : EpollEvent) :
    EventAction :=
  match resolve s alive e.record with
  | some h => EventAction.invoked h e.events
  | none => EventAction.dropped

/-- Modelled from the spec: `Loop::handleEpollEventsFromLoop` over a batch
(body in `loop.cc`, not among the given sources).  Processing consults the
registry but does not mutate it: it returns the unchanged state together
with the actions taken, in batch order. -/
def handleEpollEventsFromLoop (s : LoopState) (alive : Nat → Bool)
    (es : List EpollEvent) : LoopState × List EventAction :=
  (s, es.map (processEvent s alive))

/-- Well-formedness of the registry: every record stored in either map was
issued before the current value of the counter, and the counter is a
`uint64_t` value.  Holds initially and is preserved by the operations. -/
def WF (s : LoopState) : Prop :=
  (∀ p ∈ s.fdToRecord_, p.2 < s.nextRecord_) ∧
  (∀ p ∈ s.recordToHandler_, p.1 < s.nextRecord_) ∧
  s.nextRecord_ < 2 ^ 64

theorem alookup_eq_none {α β : Type} [DecidableEq α] (k : α)
    (l : List (α × β)) (h : ∀ p ∈ l, p.1 ≠ k) : alookup k l = none := by
  induction l with
  | nil => rfl
  | cons p rest ih =>
      simp only [alookup]
      rw [if_neg (h p (List.mem_cons_self p rest))]
      exact ih fun q hq => h q (List.mem_cons_of_mem p hq)

theorem mem_of_alookup_eq_some {α β : Type} [DecidableEq α] {k : α}
    {v : β} {l : List (α × β)} (h : alookup k l = some v) : (k, v) ∈ l := by
  induction l with
  | nil => simp [alookup] at h
  | cons p rest ih =>
      by_cases hk : p.1 = k
      · simp only [alookup, if_pos hk] at h
        cases h
        exact List.mem_cons.mpr (Or.inl (by rw [← hk]))
      · simp only [alookup, if_neg hk] at h
        exact List.mem_cons_of_mem p (ih h)

theorem alookup_aerase_self {α β : Type} [DecidableEq α] (k : α)
    (l : List (α × β)) : alookup k (aerase k l) = none := by
  induction l with
  | nil => rfl
  | cons p rest ih =>
      by_cases hk : p.1 = k
      · simpa only [aerase, if_pos hk] using ih
      · simpa only [aerase, if_neg hk, alookup, if_neg hk] using ih

theorem mem_aerase {α β : Type} [DecidableEq α] {k : α} {p : α × β}
    {l : List (α × β)} (h : p ∈ aerase k l) : p ∈ l := by
  induction l with
  | nil => simp [aerase] at h
  | cons q rest ih =>
      by_cases hk : q.1 = k
      · simp only [aerase, if_pos hk] at h
        exact List.mem_cons_of_mem q (ih h)
      · simp only [aerase, if_neg hk, List.mem_cons] at h
        rcases h with h | h
        · exact List.mem_cons.mpr (Or.inl h)
        · exact List.mem_cons_of_mem q (ih h)

theorem succ_mod_uint64_ne {n : Nat} (hn : n < 2 ^ 64) :
    (n + 1) % 2 ^ 64 ≠ n := by
  rcases Nat.lt_or_ge (n + 1) (2 ^ 64) with h | h
  · rw [Nat.mod_eq_of_lt h]
    omega
  · have heq : n + 1 = 2 ^ 64 := le_antisymm hn h
    rw [heq, Nat.mod_self]
    omega

/-- Registering a sequence of descriptors, returning the final state and
the records issued, in order of registration.  The registry mutex makes
concurrent `registerDescriptor` calls take effect in some serial order, so
a sequence of calls is the faithful picture of any concurrent execution. -/
def registerMany (s : LoopState) : List (Int × Nat) → LoopState × List Nat
  | [] => (s, [])
  | (fd, h) :: rest =>
      let p := registerDescriptor s fd h
      let q := registerMany p.1 rest
      (q.1, p.2 :: q.2)

theorem registerMany_records (s : LoopState) (regs : List (Int × Nat))
    (hroom : s.nextRecord_ + regs.length ≤ 2 ^ 64) :
    (registerMany s regs).2 = List.range' s.nextRecord_ regs.length := by
  induction regs generalizing s with
  | nil => simp [registerMany]
  | cons p rest ih =>
      obtain ⟨fd, h⟩ := p
      rcases Nat.lt_or_ge (s.nextRecord_ + 1) (2 ^ 64) with hlt | hge
      · have hnext : (registerDescriptor s fd h).1.nextRecord_ =
            s.nextRecord_ + 1 := by
          show (s.nextRecord_ + 1) % 2 ^ 64 = s.nextRecord_ + 1
          exact Nat.mod_eq_of_lt hlt
        have hrest := ih (registerDescriptor s fd h).1
        rw [hnext] at hrest
        have hrest2 := hrest (by simp only [List.length_cons] at hroom; omega)
        show (registerDescriptor s fd h).2 ::
            (registerMany (registerDescriptor s fd h).1 rest).2 =
          List.range' s.nextRecord_ ((fd, h) :: rest).length
        rw [hrest2, List.length_cons, List.range'_succ]
        rfl
      · have hlen : rest.length = 0 := by
          simp only [List.length_cons] at hroom
          omega
        rw [List.length_eq_zero] at hlen
        subst hlen
        simp [registerMany, registerDescriptor, List.range'_succ]

/-- Claim C1: stale-safety of descriptor reuse.  Register V with handler
H1 (pending readiness event E1 tagged with the issued record), unregister
V, re-register V with handler H2: processing E1 invokes no handler — not
H1, not H2 — and raises no failure; and in general an event whose record
is no longer in the registry (as the records of unregistered or
superseded registrations are not) is dropped, with the batch-processing
step leaving the registry state unchanged. -/
theorem stale_event_safe (s : LoopState) (alive : Nat → Bool) (V : Int)
    (h1 h2 ev : Nat) (hwf : WF s) :
    processEvent
        (registerDescriptor
          (unregisterDescriptor (registerDescriptor s V h1).1 V) V h2).1
        alive ⟨(registerDescriptor s V h1).2, ev⟩ = EventAction.dropped ∧
    (∀ (t : LoopState) (r evb : Nat),
      alookup r t.recordToHandler_ = none →
        processEvent t alive ⟨r, evb⟩ = EventAction.dropped ∧
        (handleEpollEventsFromLoop t alive [⟨r, evb⟩]).1 = t) := by
  constructor
  · set r1 := s.nextRecord_ with hr1
    have hr1lt : r1 < 2 ^ 64 := hwf.2.2
    have hV1 : alookup V (registerDescriptor s V h1).1.fdToRecord_ =
        some r1 := by
      simp [registerDescriptor, alookup]
    have hs2rec : (unregisterDescriptor (registerDescriptor s V h1).1 V
        ).recordToHandler_ =
        aerase r1 (registerDescriptor s V h1).1.recordToHandler_ := by
      rw [unregisterDescriptor, hV1]
    have hs2fd : (unregisterDescriptor (registerDescriptor s V h1).1 V
        ).fdToRecord_ =
        aerase V (registerDescriptor s V h1).1.fdToRecord_ := by
      rw [unregisterDescriptor, hV1]
    have hs2none : alookup V (unregisterDescriptor
        (registerDescriptor s V h1).1 V).fdToRecord_ = none := by
      rw [hs2fd]
      exact alookup_aerase_self V _
    have hr1gone : alookup r1 (unregisterDescriptor
        (registerDescriptor s V h1).1 V).recordToHandler_ = none := by
      rw [hs2rec]
      exact alookup_aerase_self r1 _
    have hnext2 : (unregisterDescriptor (registerDescriptor s V h1).1 V
        ).nextRecord_ = (r1 + 1) % 2 ^ 64 := by
      rw [unregisterDescriptor, hV1]
      rfl
    have hs3 : (registerDescriptor
        (unregisterDescriptor (registerDescriptor s V h1).1 V) V h2
        ).1.recordToHandler_ =
        ((r1 + 1) % 2 ^ 64, h2) :: (unregisterDescriptor
          (registerDescriptor s V h1).1 V).recordToHandler_ := by
      rw [registerDescriptor]
      simp only [hs2none, hnext2]
    have hlook : alookup r1 (registerDescriptor
        (unregisterDescriptor (registerDescriptor s V h1).1 V) V h2
        ).1.recordToHandler_ = none := by
      rw [hs3, alookup, if_neg (succ_mod_uint64_ne hr1lt)]
      exact hr1gone
    show processEvent _ alive ⟨(registerDescriptor s V h1).2, ev⟩ =
      EventAction.dropped
    have hr1eq : (registerDescriptor s V h1).2 = r1 := rfl
    rw [hr1eq, processEvent, resolve]
    simp only [hlook]
  · intro t r evb hnone
    constructor
    · rw [processEvent, resolve]
      simp only [hnone]
    · rfl

/-- Claim C1 witness. -/
theorem stale_event_safe_witness :
    WF initialLoopState ∧
    processEvent
        (registerDescriptor
          (unregisterDescriptor
            (registerDescriptor initialLoopState 5 10).1 5) 5 11).1
        (fun _ => true)
        ⟨(registerDescriptor initialLoopState 5 10).2, 1⟩ =
      EventAction.dropped := by
  refine ⟨⟨by simp [initialLoopState], by simp [initialLoopState],
    by norm_num [initialLoopState]⟩, ?_⟩
  exact (stale_event_safe initialLoopState (fun _ => true) 5 10 11 1
    ⟨by simp [initialLoopState], by simp [initialLoopState],
      by norm_num [initialLoopState]⟩).1

/-- Claim C2: after `unregisterDescriptor(fd)` returns, the descriptor is
gone from the descriptor-to-record mapping, the record it held is gone
from the record-to-handler mapping, and processing any event tagged with
the removed record invokes no handler, whatever handlers are still alive. -/
theorem unregisterDescriptor_removes (s : LoopState) (fd : Int) (r : Nat)
    (alive : Nat → Bool) (ev : Nat)
    (hreg : alookup fd s.fdToRecord_ = some r) :
    alookup fd (unregisterDescriptor s fd).fdToRecord_ = none ∧
    alookup r (unregisterDescriptor s fd).recordToHandler_ = none ∧
    processEvent (unregisterDescriptor s fd) alive ⟨r, ev⟩ =
      EventAction.dropped := by
  have hfd : (unregisterDescriptor s fd).fdToRecord_ =
      aerase fd s.fdToRecord_ := by
    rw [unregisterDescriptor, hreg]
  have hrec : (unregisterDescriptor s fd).recordToHandler_ =
      aerase r s.recordToHandler_ := by
    rw [unregisterDescriptor, hreg]
  refine ⟨?_, ?_, ?_⟩
  · rw [hfd]
    exact alookup_aerase_self fd _
  · rw [hrec]
    exact alookup_aerase_self r _
  · rw [processEvent, resolve, hrec]
    simp only [alookup_aerase_self]

/-- Claim C2 witness. -/
theorem unregisterDescriptor_removes_witness :
    alookup (7 : Int)
        ((registerDescriptor initialLoopState 7 3).1).fdToRecord_ =
      some 1 ∧
    processEvent
        (unregisterDescriptor (registerDescriptor initialLoopState 7 3).1 7)
        (fun _ => true) ⟨1, 4⟩ = EventAction.dropped := by
  refine ⟨by decide, ?_⟩
  exact (unregisterDescriptor_removes
    (registerDescriptor initialLoopState 7 3).1 7 1 (fun _ => true) 4
    (by decide)).2.2

/-- Claim C3: records are unique over the life of the process.  Along any
sequence of registrations that keeps the `uint64_t` counter from wrapping
(fewer than `2 ^ 64` registrations in total), the issued records are
strictly increasing in registration order — hence pairwise distinct, also
across concurrent calls, which the registry mutex serializes — and
record 0, reserved for the internal eventfd by `nextRecord_{1}`, is never
issued, the counter starting at 1. -/
theorem records_unique (s : LoopState) (regs : List (Int × Nat))
    (hpos : 1 ≤ s.nextRecord_)
    (hroom : s.nextRecord_ + regs.length ≤ 2 ^ 64) :
    (registerMany s regs).2.Pairwise (· < ·) ∧
    ∀ r ∈ (registerMany s regs).2, 1 ≤ r := by
  rw [registerMany_records s regs hroom]
  constructor
  · exact List.pairwise_lt_range' s.nextRecord_ regs.length
  · intro r hr
    rw [List.mem_range'_1] at hr
    omega

/-- Claim C3 witness. -/
theorem records_unique_witness :
    (1 ≤ initialLoopState.nextRecord_ ∧
      initialLoopState.nextRecord_ + 3 ≤ 2 ^ 64) ∧
    ((registerMany initialLoopState [(4, 0), (5, 1), (4, 2)]).2.Pairwise
        (· < ·) ∧
      ∀ r ∈ (registerMany initialLoopState [(4, 0), (5, 1), (4, 2)]).2,
        1 ≤ r) := by
  constructor
  · exact ⟨by norm_num [initialLoopState], by norm_num [initialLoopState]⟩
  · exact records_unique initialLoopState [(4, 0), (5, 1), (4, 2)]
      (by norm_num [initialLoopState]) (by norm_num [initialLoopState])

/-- Modelled from the spec: the Reactor's serialized execution context
(`reactor.h/.cc` are not among the given sources; `loop.h` lines 141-154
describe the protocol).  Units — submitted by `deferToLoop`, by
`runInLoop`'s queued wrapper, and the Poller's batch-processing units
alike — are numbered in submission order; the queue holds pending unit
ids oldest first, `running` the unit currently holding the execution
right, if any, and `executed` the completed units in completion order. -/
structure ReactorState where
  queue : List Nat
  running : Option Nat
  executed : List Nat
  nextId : Nat
deriving DecidableEq

/-- The reactor before any unit is submitted. -/
def initialReactor : ReactorState :=
  { queue := [], running := none, executed := [], nextId := 0 }

/-- Modelled from the spec: the Reactor's transitions.  A unit can be
enqueued at any time; a unit begins executing only when it is at the head
of the queue and no unit holds the execution right; a running unit
finishes and releases the execution right.  At most one unit runs at a
time and the queue is drained strictly FIFO. -/
inductive ReactorStep : ReactorState → ReactorState → Prop where
  | defer (s : ReactorState) :
      ReactorStep s
        { s with queue := s.queue ++ [s.nextId], nextId := s.nextId + 1 }
  | start (s : ReactorState) (u : Nat) (rest : List Nat) :
      s.queue = u :: rest → s.running = none →
      ReactorStep s { s with queue := rest, running := some u }
  | finish (s : ReactorState) (u : Nat) :
      s.running = some u →
      ReactorStep s
        { s with running := none, executed := s.executed ++ [u] }

/-- States the reactor can be in, starting empty. -/
def ReactorReachable (s : ReactorState) : Prop :=
  Relation.ReflTransGen ReactorStep initialReactor s

theorem reactor_inv (s : ReactorState) (hs : ReactorReachable s) :
    s.executed ++ s.running.toList ++ s.queue = List.range s.nextId := by
  induction hs with
  | refl => rfl
  | tail _ hstep ih =>
      cases hstep with
      | defer =>
          rw [List.range_succ, ← ih]
          simp [List.append_assoc]
      | start u rest hq hr =>
          rw [← ih, hq, hr]
          simp
      | finish u hr =>
          rw [← ih, hr]
          simp

theorem range_of_append_range {a b : List Nat} {n : Nat}
    (h : a ++ b = List.range n) : a = List.range a.length := by
  have hlen : a.length ≤ n := by
    have := congrArg List.length h
    simp only [List.length_append, List.length_range] at this
    omega
  have h2 : (List.range n).take a.length = List.range a.length := by
    rw [List.take_range, Nat.min_eq_left hlen]
  rw [← h2, ← h, List.take_left]

/-- Claim C4: units executed by the reactor — `runInLoop` wrappers,
`deferToLoop` submissions and the Poller's batch-processing units alike,
all of which pass through the same queue — run serially in FIFO order by
enqueue time: along every reachable reactor execution, whenever a unit
has begun executing (it holds the execution right or has finished), every
unit enqueued before it has already finished, and at most one unit holds
the execution right at any moment by construction of the step relation. -/
theorem reactor_fifo (s : ReactorState) (u1 u2 : Nat)
    (hs : ReactorReachable s) (hlt : u1 < u2)
    (hbegun : u2 ∈ s.executed ∨ s.running = some u2) :
    u1 ∈ s.executed := by
  have hinv := reactor_inv s hs
  have hex : s.executed = List.range s.executed.length :=
    range_of_append_range (by rw [← hinv, List.append_assoc])
  rcases hbegun with hmem | hrun
  · have hu2 : u2 < s.executed.length := by
      rw [hex, List.mem_range] at hmem
      exact hmem
    rw [hex, List.mem_range]
    omega
  · have hsplit : (s.executed ++ [u2]) ++ s.queue = List.range s.nextId := by
      rw [← hinv, hrun]
      simp [List.append_assoc]
    have hpre : s.executed ++ [u2] =
        List.range (s.executed ++ [u2]).length :=
      range_of_append_range hsplit
    have hlen : (s.executed ++ [u2]).length = s.executed.length + 1 := by
      simp
    rw [hlen, List.range_succ, ← hex] at hpre
    have hu2eq : u2 = s.executed.length := by
      have := List.append_cancel_left hpre
      simpa using this
    rw [hex, List.mem_range]
    omega

/-- Claim C4 witness: enqueue units 0 and 1, run unit 0 to completion,
start unit 1; unit 0 is then among the finished units. -/
theorem reactor_fifo_witness :
    (0 : Nat) ∈
      (({ queue := [], running := some 1, executed := [0],
          nextId := 2 } : ReactorState)).executed := by
  have h1 : ReactorStep initialReactor
      { queue := [0], running := none, executed := [], nextId := 1 } :=
    ReactorStep.defer initialReactor
  have h2 : ReactorStep
      { queue := [0], running := none, executed := [], nextId := 1 }
      { queue := [0, 1], running := none, executed := [], nextId := 2 } :=
    ReactorStep.defer _
  have h3 : ReactorStep
      { queue := [0, 1], running := none, executed := [], nextId := 2 }
      { queue := [1], running := some 0, executed := [], nextId := 2 } :=
    ReactorStep.start _ 0 [1] rfl rfl
  have h4 : ReactorStep
      { queue := [1], running := some 0, executed := [], nextId := 2 }
      { queue := [1], running := none, executed := [0], nextId := 2 } :=
    ReactorStep.finish _ 0 rfl
  have h5 : ReactorStep
      { queue := [1], running := none, executed := [0], nextId := 2 }
      { queue := [], running := some 1, executed := [0], nextId := 2 } :=
    ReactorStep.start _ 1 [] rfl rfl
  have hreach : ReactorReachable
      { queue := [], running := some 1, executed := [0], nextId := 2 } :=
    Relation.ReflTransGen.head h1 (Relation.ReflTransGen.head h2
      (Relation.ReflTransGen.head h3 (Relation.ReflTransGen.head h4
        (Relation.ReflTransGen.single h5))))
  exact reactor_fifo _ 0 1 hreach (by decide) (Or.inr rfl)

/-- The behaviour of a unit of work when executed: it returns, or raises
a failure (modelled by its message). -/
abbrev UnitOutcome := Except String Unit

/-- The lambda that `Loop::runInLoop` defers (`loop.h` lines 69-76): run
`fn`; on success set the promise's value, on an exception capture it into
the promise.  Returns the promise contents after the run together with
the wrapper's own outcome; the catch-all means the wrapper itself never
raises. -/
def promiseWrapperRun (fn : UnitOutcome) : UnitOutcome × UnitOutcome :=
  match fn with
  | Except.ok u => (Except.ok u, Except.ok ())
  | Except.error e => (Except.error e, Except.ok ())

/-- `std::future::get` on the promise's future: yields the stored value,
re-raising a stored exception in the waiting caller's thread. -/
def futureGet (promiseContents : UnitOutcome) : UnitOutcome :=
  promiseContents

/-- How a `runInLoop` invocation is carried out (`loop.h` lines 54-79):
either the unit runs immediately and synchronously on the calling thread
(the `inReactorThread` branch, nothing enqueued, caller never suspended),
or a wrapper is deferred to the reactor and the caller blocks on the
future until the wrapper has run. -/
inductive RunInLoopResult where
  | immediate (callerOutcome : UnitOutcome)
  | enqueuedAndWaited (wrapperOutcome : UnitOutcome)
      (callerOutcome : UnitOutcome)

/-- `Loop::runInLoop` (`loop.h` lines 54-79, code present in the given
sources): if the caller is already in the reactor thread, run `fn` at
once; otherwise defer the promise wrapper and block on the future, whose
`get` re-raises any failure the unit captured. -/
def runInLoop (inReactorThread : Bool) (fn : UnitOutcome) :
    RunInLoopResult :=
  if inReactorThread then
    RunInLoopResult.immediate fn
  else
    let p := promiseWrapperRun fn
    RunInLoopResult.enqueuedAndWaited p.2 (futureGet p.1)

/-- What becomes of a unit executed on the reactor thread after
`deferToLoop`.  Modelled from the spec: `Reactor::run`'s execution of
deferred functions is in `reactor.cc`, not among the given sources;
`loop.h` line 82 documents "If the function throws, the thread crashes",
and the spec defines a throwing deferred unit as fatal for the process. -/
inductive DeferredOutcome where
  | completed
  | processTerminated (e : String)
deriving DecidableEq

/-- Modelled from the spec: execution of one deferred unit on the reactor
thread; a unit that raises terminates the process ("the thread crashes"),
it is never swallowed and there is no caller to deliver it to —
`deferToLoop` hands back no future or channel. -/
def runDeferred (fn : UnitOutcome) : DeferredOutcome :=
  match fn with
  | Except.ok _ => DeferredOutcome.completed
  | Except.error e => DeferredOutcome.processTerminated e

/-- Claim C5: reentrancy of `runInLoop`.  Invoked from inside the
reactor's serialized context (`inReactorThread` true), the unit runs
immediately and synchronously on the calling thread — nothing is
enqueued and the caller is never suspended, so no deadlock can arise —
while from outside the caller blocks until the deferred wrapper has
completed and observes the unit's outcome. -/
theorem runInLoop_reentrant (b : Bool) (fn : UnitOutcome)
    (hb : b = true) :
    runInLoop b fn = RunInLoopResult.immediate fn ∧
    runInLoop false fn =
      RunInLoopResult.enqueuedAndWaited (Except.ok ()) (futureGet fn) := by
  subst hb
  constructor
  · rfl
  · cases fn with
    | ok u => rfl
    | error e => rfl

/-- Claim C5 witness. -/
theorem runInLoop_reentrant_witness :
    runInLoop true (Except.ok ()) =
      RunInLoopResult.immediate (Except.ok ()) :=
  (runInLoop_reentrant true (Except.ok ()) rfl).1

/-- Claim C6: a unit submitted through `runInLoop` from outside the
reactor context that raises a failure has that same failure re-raised in
the submitting caller's thread by `future.get` once the unit completes,
while the deferred wrapper itself completes normally (the catch-all
captured the exception), so the reactor survives it and continues with
subsequent units. -/
theorem runInLoop_propagates (fn : UnitOutcome) (e : String)
    (hf : fn = Except.error e) :
    runInLoop false fn =
      RunInLoopResult.enqueuedAndWaited (Except.ok ())
        (Except.error e) ∧
    runDeferred (promiseWrapperRun fn).2 = DeferredOutcome.completed := by
  subst hf
  exact ⟨rfl, rfl⟩

/-- Claim C6 witness. -/
theorem runInLoop_propagates_witness :
    runInLoop false (Except.error "boom") =
      RunInLoopResult.enqueuedAndWaited (Except.ok ())
        (Except.error "boom") :=
  (runInLoop_propagates (Except.error "boom") "boom" rfl).1

/-- Claim C7: a unit submitted via `deferToLoop` that raises during
execution is fatal — the process terminates, the failure is not
swallowed as a completed run — and no caller observes it, `deferToLoop`
being fire-and-forget with no result channel. -/
theorem deferToLoop_failure_fatal (fn : UnitOutcome) (e : String)
    (hf : fn = Except.error e) :
    runDeferred fn = DeferredOutcome.processTerminated e ∧
    runDeferred fn ≠ DeferredOutcome.completed := by
  subst hf
  exact ⟨rfl, by simp [runDeferred]⟩

/-- Claim C7 witness. -/
theorem deferToLoop_failure_fatal_witness :
    runDeferred (Except.error "boom") =
      DeferredOutcome.processTerminated "boom" :=
  (deferToLoop_failure_fatal (Except.error "boom") "boom" rfl).1

/-- The lifecycle phases of the Loop described by the spec's state
machine, reflected in `loop.h` by the `closed_` and `joined_` atomics
(lines 137-138): Running, then Closing after `close()`, then the terminal
Joined once `join()` has completed. -/
inductive LoopPhase where
  | running
  | closing
  | joined
deriving DecidableEq

/-- Lifecycle view of the Loop: its phase, whether the Poller thread has
exited, and the reactor's queue of still-pending deferred units. -/
structure LifecycleState where
  phase : LoopPhase
  pollerExited : Bool
  pendingUnits : List Nat
deriving DecidableEq

/-- Modelled from the spec: `Loop::close` (body in `loop.cc`, not among
the given sources) marks the loop closed and tears down the readiness
facility, so the Poller's wait returns with a shutdown indication;
already-queued deferred units are kept to be drained. -/
def closeLoop (s : LifecycleState) : LifecycleState :=
  { s with phase := LoopPhase.closing }

/-- Whether a new readiness wait may begin: only while running. -/
def canBeginWait (s : LifecycleState) : Bool :=
  decide (s.phase = LoopPhase.running)

/-- Modelled from the spec: the lifecycle gate of a registration
operation — after `close()` any registration operation is rejected. -/
def registerInPhase (s : LifecycleState) (_fd : Int) (_h : Nat) :
    Except String Unit :=
  if s.phase = LoopPhase.running then Except.ok ()
  else Except.error "loop is closed"

/-- Modelled from the spec: `Loop::join` (body in `loop.cc`, not among
the given sources) returns only once the Poller thread has exited and
the reactor's queue has drained; it returns the units drained, in order,
and leaves the loop in the terminal Joined phase. -/
def joinLoop (s : LifecycleState) : LifecycleState × List Nat :=
  ({ phase := LoopPhase.joined, pollerExited := true, pendingUnits := [] },
    s.pendingUnits)

/-- Claim C8: the Running to Closing to Joined state machine.  From any
lifecycle state, `close()` puts the loop in the Closing phase, after
which no new readiness wait begins and every registration operation is
rejected; the queued units are still there to drain, and `join()` returns
only with the Poller thread exited and the queue empty — the drained
units being exactly those that were pending — leaving the terminal
Joined phase. -/
theorem loop_shutdown (s : LifecycleState) :
    (closeLoop s).phase = LoopPhase.closing ∧
    canBeginWait (closeLoop s) = false ∧
    (∀ (fd : Int) (h : Nat),
      registerInPhase (closeLoop s) fd h = Except.error "loop is closed") ∧
    (closeLoop s).pendingUnits = s.pendingUnits ∧
    (joinLoop (closeLoop s)).1.phase = LoopPhase.joined ∧
    (joinLoop (closeLoop s)).1.pollerExited = true ∧
    (joinLoop (closeLoop s)).1.pendingUnits = [] ∧
    (joinLoop (closeLoop s)).2 = s.pendingUnits := by
  refine ⟨rfl, rfl, ?_, rfl, rfl, rfl, rfl, rfl⟩
  intro fd h
  rfl

/-- The epoll readiness flags rendered by the diagnostic formatter, with
their `<sys/epoll.h>` bit values. -/
def epollFlagTable : List (Nat × String) :=
  [(1, "EPOLLIN"), (2, "EPOLLPRI"), (4, "EPOLLOUT"), (8, "EPOLLERR"),
    (16, "EPOLLHUP"), (8192, "EPOLLRDHUP")]

/-- Modelled from the spec: `Loop::formatEpollEvents` (only declared in
`loop.h` line 121; its body, in `loop.cc`, is not among the given
sources).  It renders a readiness event bitmask (a `uint32_t`, hence the
reduction modulo `2 ^ 32`) as a human-readable string naming the set
flags. -/
def formatEpollEvents (events : Nat) : String :=
  String.intercalate " "
    ((epollFlagTable.filter
      (fun p => (events % 2 ^ 32) &&& p.1 != 0)).map (fun p => p.2))

/-- An invocation of the static `formatEpollEvents` in the context of a
registry state and a reactor state: it produces the string and hands
every piece of state back. -/
def formatEpollEventsInvoke (s : LoopState) (r : ReactorState) (e : Nat) :
    String × LoopState × ReactorState :=
  (formatEpollEvents e, s, r)

/-- Claim C9: `formatEpollEvents` is pure.  Its result is determined
solely by the event bitmask — two invocations with the same bitmask,
whatever registry or reactor state surrounds them, return the same
string, which moreover depends only on the 32 bits of the `uint32_t`
argument — and every invocation leaves the registry and reactor state
exactly as it found them. -/
theorem formatEpollEvents_pure (s s' : LoopState) (r r' : ReactorState)
    (e : Nat) :
    (formatEpollEventsInvoke s r e).1 = (formatEpollEventsInvoke s' r' e).1 ∧
    (formatEpollEventsInvoke s r e).2.1 = s ∧
    (formatEpollEventsInvoke s r e).2.2 = r ∧
    formatEpollEvents e = formatEpollEvents (e % 2 ^ 32) := by
  refine ⟨rfl, rfl, rfl, ?_⟩
  unfold formatEpollEvents
  rw [Nat.mod_mod_of_dvd e (dvd_refl (2 ^ 32))]

end Shm

/-- The device kind tag.  The `DeviceType` enumeration lives in
`tensorpipe/common/buffer.h`, which is not among the given sources; the
member used by `cuda_buffer.h` is `kCuda`. -/
inductive DeviceType where
  | kCpu
  | kCuda
deriving DecidableEq

/-- `tensorpipe/common/cuda_buffer.h` lines 17-21: a CUDA buffer is a
pointer, a length and a stream, with member initializers
`ptr{nullptr}`, `length{0}`, `stream{cudaStreamDefault}`.  Pointers and
stream handles are modelled as numeric addresses, `nullptr` and the
default (legacy) stream `cudaStreamDefault` both being 0. -/
structure CudaBuffer where
  ptr : Nat := 0
  length : Nat := 0
  stream : Nat := 0
deriving DecidableEq

/-- `tensorpipe/common/cuda_buffer.h` lines 23-26: the `deviceType`
specialization for `CudaBuffer` ignores its argument and returns
`DeviceType::kCuda`. -/
def deviceType (_ : CudaBuffer) : DeviceType :=
  DeviceType.kCuda

/-- Claim C10: every `CudaBuffer`, whatever its pointer, length and
stream, has device type `kCuda`, and a default-constructed `CudaBuffer`
has a null pointer, length 0 and the default stream. -/
theorem cudaBuffer_deviceType :
    (∀ b : CudaBuffer, deviceType b = DeviceType.kCuda) ∧
    ({} : CudaBuffer).ptr = 0 ∧
    ({} : CudaBuffer).length = 0 ∧
    ({} : CudaBuffer).stream = 0 :=
  ⟨fun _ => rfl, rfl, rfl, rfl⟩

end Tensorpipe
